import Mathlib

/-!
Verification of the daily-spin ("roue de la chance") subsystem of
CRABDEvaincra/CrabdeSite, src/server.js.

The repository ships three variants of `server.js` (two PostgreSQL-backed,
one SQLite-backed).  The wheel routes are:

* `POST /api/roue/check`  — read-only eligibility query;
* `POST /api/roue/spin`   — read the row for `user_identifier`, reject with
  HTTP 403 if `last_spin_date` equals today, otherwise draw
  `Math.floor(Math.random() * 50) === 0` and INSERT or UPDATE the row.

Time model: an *instant* is a number of minutes since the UTC epoch; a
*calendar date* is a number of days since the UTC epoch.
`new Date().toISOString()` truncated at the letter T renders the UTC date of the current
instant, i.e. `now / minutesPerDay`.
-/

def minutesPerDay : Nat := 1440

/-- UTC calendar date of an instant, as computed by
`new Date().toISOString()` truncated at the letter T. -/
def utcDate (now : Nat) : Nat := now / minutesPerDay

/-- The instant at 00:00 UTC of calendar date `d`. -/
def startOfDay (d : Nat) : Nat := d * minutesPerDay

/-- One row of the `roue_tentatives` table (keyed by `user_identifier`). -/
structure RoueEntry where
  last_spin_date : Nat
  total_spins : Nat
  total_wins : Nat
deriving DecidableEq

/-- The `roue_tentatives` table: at most one row per identifier
(`user_identifier TEXT NOT NULL UNIQUE`). -/
def Ledger : Type := String → Option RoueEntry

/-- The table with no rows. -/
def emptyLedger : Ledger := fun _ => none

/-- `INSERT INTO roue_tentatives (user_identifier, last_spin_date,
total_spins, total_wins) VALUES (id, today, 1, winInc)` for an identifier
with no existing row. -/
def insertEntry (led : Ledger) (id : String) (e : RoueEntry) : Ledger :=
  fun k => if k = id then some e else led k

/-- `UPDATE roue_tentatives SET last_spin_date = today,
total_spins = total_spins + 1, total_wins = total_wins + winInc
WHERE user_identifier = id`: the increments read the value stored at the
moment the UPDATE executes. -/
def updateEntry (led : Ledger) (id : String) (today : Nat) (winInc : Nat) :
    Ledger :=
  fun k =>
    if k = id then
      match led k with
      | some e => some ⟨today, e.total_spins + 1, e.total_wins + winInc⟩
      | none => none
    else led k

/-- The random draw `Math.floor(Math.random() * 50)` is a uniform integer
in `[0, 50)`; the spin wins exactly when it is `0`
(`const hasWon = Math.floor(Math.random() * 50) === 0`). -/
def hasWonOf (draw : Fin 50) : Bool := draw.val == 0

/-- The `userIdentifier` field of the JSON request body as the handler
receives it: absent (or `null`), present with a non-string value whose
SQL-parameter coercion is `coerced`, or a string. -/
inductive ReqIdent where
  | missing : ReqIdent
  | nonString (coerced : String) : ReqIdent
  | str (s : String) : ReqIdent
deriving DecidableEq

/-- The SQL parameter value a PostgreSQL-variant handler binds for the
identifier: `NULL` when the body field is absent (no validation is
performed), otherwise its coercion/value. -/
def pgKey : ReqIdent → Option String
  | ReqIdent.missing => none
  | ReqIdent.nonString c => some c
  | ReqIdent.str s => some s

/-- The SQLite-variant validation: the handler rejects when
`!userIdentifier` holds or `typeof userIdentifier` is not the string type;
only a non-empty string passes (the empty string is falsy in JavaScript). -/
def sqliteValidKey : ReqIdent → Option String
  | ReqIdent.str s => if s = "" then none else some s
  | _ => none

/-- HTTP-level outcome of a wheel route. -/
inductive RouteResult where
  /-- 400 "Identifiant utilisateur manquant" (SQLite variant only). -/
  | missingIdentifier : RouteResult
  /-- 403, the already-played-today rejection. -/
  | alreadySpunToday : RouteResult
  /-- 200 `\x7b hasWon, canSpin: false \x7d` (PostgreSQL spin). -/
  | spinSuccess (hasWon : Bool) : RouteResult
  /-- 200 spin response of the SQLite variant, which also reports totals. -/
  | spinSuccessS (hasWon : Bool) (totalSpins totalWins : Nat) : RouteResult
  /-- 200 `\x7b canSpin, nextSpinDate \x7d`; the SQLite check also reports
  totals, carried in the last two fields (`none` for PostgreSQL). -/
  | checkOk (canSpin : Bool) (nextSpinDate : Option Nat)
      (totalSpins totalWins : Option Nat) : RouteResult
  /-- 500 "Erreur serveur". -/
  | serverError : RouteResult
deriving DecidableEq

/-- What a route call produced: the HTTP result, the table afterwards, and
how many SQL statements reached the store. -/
structure RouteOut where
  result : RouteResult
  led : Ledger
  queries : Nat

/-- `POST /api/roue/check`, PostgreSQL variant: SELECT the row, answer
`canSpin`; when the row's date is today, `nextSpinDate` is
`tomorrow = new Date(); tomorrow.setDate(tomorrow.getDate() + 1)`,
i.e. the current instant plus one day. -/
def checkPGRoute (led : Ledger) (ident : ReqIdent) (now : Nat) : RouteOut :=
  let today := utcDate now
  match pgKey ident with
  | none => ⟨RouteResult.checkOk true none none none, led, 1⟩
  | some id =>
    match led id with
    | none => ⟨RouteResult.checkOk true none none none, led, 1⟩
    | some e =>
      if e.last_spin_date ≠ today then
        ⟨RouteResult.checkOk true none none none, led, 1⟩
      else
        ⟨RouteResult.checkOk false (some (now + minutesPerDay)) none none,
          led, 1⟩

/-- `POST /api/roue/check`, SQLite variant: validates the identifier first,
then SELECTs; when the row's date is today, `nextSpinDate` is
`new Date(row.last_spin_date)` plus one day, i.e. 00:00 of the calendar day
after `last_spin_date`. -/
def checkSQLiteRoute (led : Ledger) (ident : ReqIdent) (now : Nat) :
    RouteOut :=
  match sqliteValidKey ident with
  | none => ⟨RouteResult.missingIdentifier, led, 0⟩
  | some id =>
    let today := utcDate now
    match led id with
    | none => ⟨RouteResult.checkOk true none (some 0) (some 0), led, 1⟩
    | some e =>
      if e.last_spin_date ≠ today then
        ⟨RouteResult.checkOk true none (some e.total_spins)
          (some e.total_wins), led, 1⟩
      else
        ⟨RouteResult.checkOk false (some (startOfDay (e.last_spin_date + 1)))
          (some e.total_spins) (some e.total_wins), led, 1⟩

/-- Outcome of the read (SELECT + date comparison) phase of a spin. -/
inductive ReadOutcome where
  /-- Row exists and `last_spin_date` equals today: reject. -/
  | reject : ReadOutcome
  /-- No row: proceed to INSERT. -/
  | proceedInsert : ReadOutcome
  /-- Row exists with an earlier date: proceed to UPDATE. -/
  | proceedUpdate : ReadOutcome
deriving DecidableEq

/-- The read phase of `POST /api/roue/spin`:
`SELECT * FROM roue_tentatives WHERE user_identifier = id` followed by the
in-process date comparison. -/
def spinRead (led : Ledger) (id : String) (today : Nat) : ReadOutcome :=
  match led id with
  | none => ReadOutcome.proceedInsert
  | some e =>
    if e.last_spin_date = today then ReadOutcome.reject
    else ReadOutcome.proceedUpdate

/-- The completion of `POST /api/roue/spin` after the read phase: either the
403 rejection, or the draw followed by the INSERT / UPDATE.  `queries`
counts the statements of the whole request (the SELECT of the read phase
plus the write, when one happens). -/
def spinWrite (led : Ledger) (id : String) (today : Nat) (draw : Fin 50) :
    ReadOutcome → RouteOut
  | ReadOutcome.reject => ⟨RouteResult.alreadySpunToday, led, 1⟩
  | ReadOutcome.proceedInsert =>
    let hasWon := hasWonOf draw
    ⟨RouteResult.spinSuccess hasWon,
      insertEntry led id ⟨today, 1, cond hasWon 1 0⟩, 2⟩
  | ReadOutcome.proceedUpdate =>
    let hasWon := hasWonOf draw
    ⟨RouteResult.spinSuccess hasWon,
      updateEntry led id today (cond hasWon 1 0), 2⟩

/-- `POST /api/roue/spin`, PostgreSQL variant.  No identifier validation:
with an absent field the SELECT still runs (matching no row) and the
subsequent INSERT binds `NULL` for the `NOT NULL` column, so the store
rejects it and the handler answers 500.  For a bound identifier the request
is the read phase followed immediately by the write phase on the same
table state (one sequential request). -/
def spinPGRoute (led : Ledger) (ident : ReqIdent) (now : Nat)
    (draw : Fin 50) : RouteOut :=
  let today := utcDate now
  match pgKey ident with
  | none => ⟨RouteResult.serverError, led, 2⟩
  | some id => spinWrite led id today draw (spinRead led id today)

/-- `POST /api/roue/spin`, SQLite variant: validates the identifier before
touching the store, then runs the same read-check-draw-write sequence; the
success response reports totals recomputed from the row read earlier
(`row.total_spins + 1`, `row.total_wins + (hasWon ? 1 : 0)`). -/
def spinSQLiteRoute (led : Ledger) (ident : ReqIdent) (now : Nat)
    (draw : Fin 50) : RouteOut :=
  match sqliteValidKey ident with
  | none => ⟨RouteResult.missingIdentifier, led, 0⟩
  | some id =>
    let today := utcDate now
    match led id with
    | none =>
      let hasWon := hasWonOf draw
      ⟨RouteResult.spinSuccessS hasWon 1 (cond hasWon 1 0),
        insertEntry led id ⟨today, 1, cond hasWon 1 0⟩, 2⟩
    | some e =>
      if e.last_spin_date = today then
        ⟨RouteResult.alreadySpunToday, led, 1⟩
      else
        let hasWon := hasWonOf draw
        ⟨RouteResult.spinSuccessS hasWon (e.total_spins + 1)
            (e.total_wins + cond hasWon 1 0),
          updateEntry led id today (cond hasWon 1 0), 2⟩

/-- The stored `total_wins` for an identifier (0 when no row exists). -/
def winsOf (led : Ledger) (id : String) : Nat :=
  match led id with
  | some e => e.total_wins
  | none => 0

/-- The stored `total_spins` for an identifier (0 when no row exists). -/
def spinsOf (led : Ledger) (id : String) : Nat :=
  match led id with
  | some e => e.total_spins
  | none => 0

/-- A wheel operation, for stating invariants over arbitrary sequences. -/
inductive RoueOp where
  | check (ident : ReqIdent) (now : Nat) : RoueOp
  | spin (ident : ReqIdent) (now : Nat) (draw : Fin 50) : RoueOp

/-- Table state after one operation (PostgreSQL variant handlers). -/
def applyOp (led : Ledger) : RoueOp → Ledger
  | RoueOp.check ident now => (checkPGRoute led ident now).led
  | RoueOp.spin ident now draw => (spinPGRoute led ident now draw).led

/-- Every stored row satisfies `total_wins ≤ total_spins`. -/
def LedgerInv (led : Ledger) : Prop :=
  ∀ id e, led id = some e → e.total_wins ≤ e.total_spins

-- A concrete table used by witnesses: "abc" spun once on date 0, no win.
def ledAbcDay0 : Ledger := insertEntry emptyLedger "abc" ⟨0, 1, 0⟩

/-- The PostgreSQL check route never writes: the table it returns is the
table it was given. -/
theorem checkPGRoute_led (led : Ledger) (ident : ReqIdent) (now : Nat) :
    (checkPGRoute led ident now).led = led := by
  simp only [checkPGRoute]
  split
  · rfl
  · split
    · rfl
    · split <;> rfl

/-- The SQLite check route never writes either. -/
theorem checkSQLiteRoute_led (led : Ledger) (ident : ReqIdent) (now : Nat) :
    (checkSQLiteRoute led ident now).led = led := by
  simp only [checkSQLiteRoute]
  split
  · rfl
  · split
    · rfl
    · split <;> rfl

/-- A sequential spin request is exactly the read phase followed by the
write phase on an unchanged table. -/
theorem spinPGRoute_phases (led : Ledger) (id : String) (now : Nat)
    (draw : Fin 50) :
    spinPGRoute led (ReqIdent.str id) now draw
      = spinWrite led id (utcDate now) draw (spinRead led id (utcDate now)) :=
  rfl

/-- C1: the claim asserts that the eligibility re-check and the commit form
one atomic operation, so that of N same-day concurrent spins exactly one
commits and the rest get AlreadySpunToday.  The code is a naive
read-then-write with no transaction, lock, or conditional write: in the
interleaving where two requests for "abc" (whose row has
`last_spin_date = 0`) both run their SELECT on day 1 before either writes,
both pass the date check, both commit, and the stored `total_spins` grows
by 2 on a single calendar day — refuting the claimed 1-commit/N−1-reject
outcome. -/
theorem c1_interleaved_spins_both_commit :
    (spinWrite ledAbcDay0 "abc" 1 (1 : Fin 50)
        (spinRead ledAbcDay0 "abc" 1)).result
      = RouteResult.spinSuccess false ∧
    (spinWrite (spinWrite ledAbcDay0 "abc" 1 (1 : Fin 50)
          (spinRead ledAbcDay0 "abc" 1)).led "abc" 1 (2 : Fin 50)
        (spinRead ledAbcDay0 "abc" 1)).result
      = RouteResult.spinSuccess false ∧
    (spinWrite (spinWrite ledAbcDay0 "abc" 1 (1 : Fin 50)
          (spinRead ledAbcDay0 "abc" 1)).led "abc" 1 (2 : Fin 50)
        (spinRead ledAbcDay0 "abc" 1)).led "abc"
      = some ⟨1, 3, 0⟩ := by
  decide

/-- C2: when a row exists for the identifier and its `last_spin_date`
equals today, the spin request is rejected with the 403 AlreadySpunToday
response after a single SELECT, and the table — `total_spins` and
`total_wins` included — is returned unchanged, in both the PostgreSQL and
the SQLite variant. -/
theorem c2_reject_no_mutation (led : Ledger) (id : String) (now : Nat)
    (draw : Fin 50) (e : RoueEntry) (hid : id ≠ "")
    (hrow : led id = some e) (hdate : e.last_spin_date = utcDate now) :
    spinPGRoute led (ReqIdent.str id) now draw
        = ⟨RouteResult.alreadySpunToday, led, 1⟩ ∧
    spinSQLiteRoute led (ReqIdent.str id) now draw
        = ⟨RouteResult.alreadySpunToday, led, 1⟩ := by
  constructor
  · simp [spinPGRoute, pgKey, spinRead, hrow, hdate, spinWrite]
  · simp [spinSQLiteRoute, sqliteValidKey, hid, hrow, hdate]

/-- C2 witness: identifier "abc" spun on date 0 and spins again at instant
100 (still date 0): both variants answer 403 and leave the table alone. -/
theorem c2_reject_no_mutation_witness :
    spinPGRoute ledAbcDay0 (ReqIdent.str "abc") 100 3
        = ⟨RouteResult.alreadySpunToday, ledAbcDay0, 1⟩ ∧
    spinSQLiteRoute ledAbcDay0 (ReqIdent.str "abc") 100 3
        = ⟨RouteResult.alreadySpunToday, ledAbcDay0, 1⟩ :=
  c2_reject_no_mutation ledAbcDay0 "abc" 100 3 ⟨0, 1, 0⟩ (by decide)
    (by decide) (by decide)

/-- C3 counterexample: the claim says `nextEligibleAt` is the start of the
calendar day after `last_spin_date` (computed as `lastSpinDate + 1 day`,
not `now + 1 day`).  The PostgreSQL check route answers with
`now + 1 day` instead: for "abc" with `last_spin_date = 0` queried at
instant 600 (10:00 UTC of day 0), it returns instant 2040, while the start
of day 1 is instant 1440. -/
theorem c3_next_eligible_counterexample :
    (checkPGRoute ledAbcDay0 (ReqIdent.str "abc") 600).result
      = RouteResult.checkOk false (some (600 + minutesPerDay)) none none ∧
    600 + minutesPerDay ≠ startOfDay (0 + 1) := by
  decide

/-- C3 amended: eligibility is as claimed in both variants (no row, or a
row with a different date, gives eligible with no next date), but when the
row's date is today only the SQLite variant returns the start of the day
after `last_spin_date`; the PostgreSQL variant returns the current instant
plus one day. -/
theorem c3_amended_eligibility (led : Ledger) (id : String) (now : Nat)
    (hid : id ≠ "") :
    (led id = none →
      (checkPGRoute led (ReqIdent.str id) now).result
          = RouteResult.checkOk true none none none ∧
      (checkSQLiteRoute led (ReqIdent.str id) now).result
          = RouteResult.checkOk true none (some 0) (some 0)) ∧
    (∀ e, led id = some e → e.last_spin_date ≠ utcDate now →
      (checkPGRoute led (ReqIdent.str id) now).result
          = RouteResult.checkOk true none none none ∧
      (checkSQLiteRoute led (ReqIdent.str id) now).result
          = RouteResult.checkOk true none (some e.total_spins)
              (some e.total_wins)) ∧
    (∀ e, led id = some e → e.last_spin_date = utcDate now →
      (checkPGRoute led (ReqIdent.str id) now).result
          = RouteResult.checkOk false (some (now + minutesPerDay)) none none ∧
      (checkSQLiteRoute led (ReqIdent.str id) now).result
          = RouteResult.checkOk false
              (some (startOfDay (e.last_spin_date + 1)))
              (some e.total_spins) (some e.total_wins)) := by
  refine ⟨fun h => ?_, fun e he hne => ?_, fun e he hd => ?_⟩ <;>
    simp_all [checkPGRoute, checkSQLiteRoute, pgKey, sqliteValidKey]

/-- C3 witness: "abc" with `last_spin_date = 0` queried at instant 600. -/
theorem c3_amended_eligibility_witness :
    (checkPGRoute ledAbcDay0 (ReqIdent.str "abc") 600).result
        = RouteResult.checkOk false (some (600 + minutesPerDay)) none none ∧
    (checkSQLiteRoute ledAbcDay0 (ReqIdent.str "abc") 600).result
        = RouteResult.checkOk false (some (startOfDay (0 + 1))) (some 1)
            (some 0) :=
  (c3_amended_eligibility ledAbcDay0 "abc" 600 (by decide)).2.2 ⟨0, 1, 0⟩
    (by decide) (by decide)

/-- C4: a committing spin writes exactly as claimed.  With no prior row,
the new row is `⟨today, 1, won ? 1 : 0⟩`; with a prior row of a different
date, the row becomes `⟨today, total_spins + 1, total_wins + (won ? 1 : 0)⟩`;
in both cases every other identifier's row is untouched and the response
reports the drawn outcome. -/
theorem c4_commit_semantics (led : Ledger) (id : String) (now : Nat)
    (draw : Fin 50) :
    (led id = none →
      (spinPGRoute led (ReqIdent.str id) now draw).result
          = RouteResult.spinSuccess (hasWonOf draw) ∧
      (spinPGRoute led (ReqIdent.str id) now draw).led id
          = some ⟨utcDate now, 1, cond (hasWonOf draw) 1 0⟩) ∧
    (∀ e, led id = some e → e.last_spin_date ≠ utcDate now →
      (spinPGRoute led (ReqIdent.str id) now draw).result
          = RouteResult.spinSuccess (hasWonOf draw) ∧
      (spinPGRoute led (ReqIdent.str id) now draw).led id
          = some ⟨utcDate now, e.total_spins + 1,
              e.total_wins + cond (hasWonOf draw) 1 0⟩) ∧
    (∀ k, k ≠ id → (spinPGRoute led (ReqIdent.str id) now draw).led k
          = led k) := by
  refine ⟨fun h => ?_, fun e he hne => ?_, fun k hk => ?_⟩
  · simp [spinPGRoute, pgKey, spinRead, spinWrite, h, insertEntry]
  · simp [spinPGRoute, pgKey, spinRead, spinWrite, he, hne, updateEntry]
  · simp only [spinPGRoute, pgKey, spinWrite, spinRead]
    cases hrow : led id with
    | none => simp [insertEntry, hk]
    | some e =>
      by_cases hd : e.last_spin_date = utcDate now <;>
        simp [hd, updateEntry, hk]

/-- C4 witness: a fresh identifier "xyz" spinning at instant 600 with a
winning draw creates `⟨0, 1, 1⟩`; "abc" (row from date 0) spinning at
instant 1500 (date 1) with a losing draw becomes `⟨1, 2, 0⟩`. -/
theorem c4_commit_semantics_witness :
    ((spinPGRoute emptyLedger (ReqIdent.str "xyz") 600 0).led "xyz"
        = some ⟨0, 1, 1⟩) ∧
    ((spinPGRoute ledAbcDay0 (ReqIdent.str "abc") 1500 7).led "abc"
        = some ⟨1, 2, 0⟩) :=
  ⟨((c4_commit_semantics emptyLedger "xyz" 600 0).1 (by decide)).2,
   ((c4_commit_semantics ledAbcDay0 "abc" 1500 7).2.1 ⟨0, 1, 0⟩ (by decide)
      (by decide)).2⟩

/-- The read phase proceeds to an INSERT exactly when no row exists. -/
theorem spinRead_insert_iff (led : Ledger) (id : String) (t : Nat) :
    spinRead led id t = ReadOutcome.proceedInsert ↔ led id = none := by
  cases h : led id with
  | none => simp [spinRead, h]
  | some e => by_cases hd : e.last_spin_date = t <;> simp [spinRead, h, hd]

/-- The read phase proceeds to an UPDATE exactly when a row with a
different date exists. -/
theorem spinRead_update_iff (led : Ledger) (id : String) (t : Nat) :
    spinRead led id t = ReadOutcome.proceedUpdate ↔
      ∃ e, led id = some e ∧ e.last_spin_date ≠ t := by
  cases h : led id with
  | none => simp [spinRead, h]
  | some e => by_cases hd : e.last_spin_date = t <;> simp [spinRead, h, hd]

/-- After a full sequential spin on key `key`, each identifier's row is
either untouched, freshly inserted (`⟨today, 1, winInc⟩`), or incremented
from its previous value. -/
theorem spin_led_cases (led : Ledger) (key : String) (t : Nat)
    (draw : Fin 50) (id : String) :
    (spinWrite led key t draw (spinRead led key t)).led id = led id ∨
      (led id = none ∧
        (spinWrite led key t draw (spinRead led key t)).led id
          = some ⟨t, 1, cond (hasWonOf draw) 1 0⟩) ∨
      (∃ e, led id = some e ∧
        (spinWrite led key t draw (spinRead led key t)).led id
          = some ⟨t, e.total_spins + 1,
              e.total_wins + cond (hasWonOf draw) 1 0⟩) := by
  cases hread : spinRead led key t with
  | reject => exact Or.inl rfl
  | proceedInsert =>
    have hnone := (spinRead_insert_iff led key t).mp hread
    by_cases hik : id = key
    · subst hik
      exact Or.inr (Or.inl ⟨hnone, by simp [spinWrite, insertEntry]⟩)
    · exact Or.inl (by simp [spinWrite, insertEntry, hik])
  | proceedUpdate =>
    obtain ⟨e0, he0, _⟩ := (spinRead_update_iff led key t).mp hread
    by_cases hik : id = key
    · subst hik
      exact Or.inr (Or.inr ⟨e0, he0, by simp [spinWrite, updateEntry, he0]⟩)
    · exact Or.inl (by simp [spinWrite, updateEntry, hik])

/-- `spin_led_cases` lifted to the full PostgreSQL spin route. -/
theorem spinPG_led_cases (led : Ledger) (ident : ReqIdent) (now : Nat)
    (draw : Fin 50) (id : String) :
    (spinPGRoute led ident now draw).led id = led id ∨
      (led id = none ∧
        (spinPGRoute led ident now draw).led id
          = some ⟨utcDate now, 1, cond (hasWonOf draw) 1 0⟩) ∨
      (∃ e, led id = some e ∧
        (spinPGRoute led ident now draw).led id
          = some ⟨utcDate now, e.total_spins + 1,
              e.total_wins + cond (hasWonOf draw) 1 0⟩) := by
  cases ident with
  | missing => exact Or.inl rfl
  | nonString c => exact spin_led_cases led c (utcDate now) draw id
  | str s => exact spin_led_cases led s (utcDate now) draw id

/-- C5: after any single operation (check, spin commit, or spin rejection,
PostgreSQL variant), every stored row still satisfies
`total_wins ≤ total_spins` provided every row did before, and no row's
`total_spins` or `total_wins` decreases.  (Both counters live in `Nat`,
so non-negativity is intrinsic.) -/
theorem c5_totals_invariant (led : Ledger) (op : RoueOp)
    (hinv : LedgerInv led) :
    LedgerInv (applyOp led op) ∧
    ∀ id e, led id = some e → ∃ e', applyOp led op id = some e' ∧
      e.total_spins ≤ e'.total_spins ∧ e.total_wins ≤ e'.total_wins := by
  have hwc : ∀ b : Bool, cond b 1 0 ≤ 1 := by intro b; cases b <;> simp
  cases op with
  | check ident now =>
    have hled : applyOp led (RoueOp.check ident now) = led :=
      checkPGRoute_led led ident now
    rw [hled]
    exact ⟨hinv, fun id e h => ⟨e, h, Nat.le_refl _, Nat.le_refl _⟩⟩
  | spin ident now draw =>
    constructor
    · intro id e h
      rcases spinPG_led_cases led ident now draw id with
        hsame | ⟨_, hnew⟩ | ⟨e0, he0, hupd⟩
      · rw [show applyOp led (RoueOp.spin ident now draw)
              = (spinPGRoute led ident now draw).led from rfl, hsame] at h
        exact hinv id e h
      · rw [show applyOp led (RoueOp.spin ident now draw)
              = (spinPGRoute led ident now draw).led from rfl, hnew] at h
        injection h with h'
        subst h'
        exact hwc _
      · rw [show applyOp led (RoueOp.spin ident now draw)
              = (spinPGRoute led ident now draw).led from rfl, hupd] at h
        injection h with h'
        subst h'
        have h1 := hinv id e0 he0
        have h2 := hwc (hasWonOf draw)
        simp only
        omega
    · intro id e h
      rcases spinPG_led_cases led ident now draw id with
        hsame | ⟨h0, _⟩ | ⟨e0, he0, hupd⟩
      · exact ⟨e, by rw [show applyOp led (RoueOp.spin ident now draw)
              = (spinPGRoute led ident now draw).led from rfl, hsame, h],
          Nat.le_refl _, Nat.le_refl _⟩
      · rw [h0] at h
        exact Option.noConfusion h
      · rw [he0] at h
        injection h with h'
        subst h'
        exact ⟨_, hupd, Nat.le_succ _, Nat.le_add_right _ _⟩

/-- C5 witness: "abc" (one losing spin on date 0) spins again at instant
1500 (date 1): the invariant and monotonicity hold across the commit. -/
theorem c5_totals_invariant_witness :
    LedgerInv (applyOp ledAbcDay0 (RoueOp.spin (ReqIdent.str "abc") 1500 0)) ∧
    ∀ id e, ledAbcDay0 id = some e →
      ∃ e', applyOp ledAbcDay0 (RoueOp.spin (ReqIdent.str "abc") 1500 0) id
          = some e' ∧
        e.total_spins ≤ e'.total_spins ∧ e.total_wins ≤ e'.total_wins :=
  c5_totals_invariant ledAbcDay0 (RoueOp.spin (ReqIdent.str "abc") 1500 0)
    (fun id e h => by
      by_cases hik : id = "abc"
      · subst hik
        simp only [ledAbcDay0, insertEntry, emptyLedger,
          Option.some.injEq, if_true, eq_self_iff_true] at h
        subst h
        decide
      · simp only [ledAbcDay0, insertEntry, emptyLedger] at h
        rw [if_neg hik] at h
        exact Option.noConfusion h)

/-- C6 counterexample: the claim says a request with an absent identifier
is rejected with MissingIdentifier before any storage access, citing the
PostgreSQL spin route among its sources.  That route performs no
validation: with the field absent it still issues its SQL statements (the
SELECT, then the doomed INSERT) and answers 500, not a validation error;
the PostgreSQL check route likewise queries the store. -/
theorem c6_pg_no_validation_counterexample :
    (spinPGRoute emptyLedger ReqIdent.missing 600 1).queries ≠ 0 ∧
    (spinPGRoute emptyLedger ReqIdent.missing 600 1).result
        ≠ RouteResult.missingIdentifier ∧
    (checkPGRoute emptyLedger ReqIdent.missing 600).queries ≠ 0 := by
  decide

/-- C6 amended: in the SQLite variant, every check or spin request whose
identifier fails the falsy-or-not-a-string validation test is answered
with the 400 MissingIdentifier error, with zero SQL
statements issued and the table untouched; the PostgreSQL variant performs
no such validation. -/
theorem c6_amended_sqlite_validation (led : Ledger) (ident : ReqIdent)
    (now : Nat) (draw : Fin 50) (hbad : sqliteValidKey ident = none) :
    checkSQLiteRoute led ident now
        = ⟨RouteResult.missingIdentifier, led, 0⟩ ∧
    spinSQLiteRoute led ident now draw
        = ⟨RouteResult.missingIdentifier, led, 0⟩ := by
  constructor <;> simp [checkSQLiteRoute, spinSQLiteRoute, hbad]

/-- C6 witness: an absent identifier at instant 600. -/
theorem c6_amended_sqlite_validation_witness :
    checkSQLiteRoute emptyLedger ReqIdent.missing 600
        = ⟨RouteResult.missingIdentifier, emptyLedger, 0⟩ ∧
    spinSQLiteRoute emptyLedger ReqIdent.missing 600 1
        = ⟨RouteResult.missingIdentifier, emptyLedger, 0⟩ :=
  c6_amended_sqlite_validation emptyLedger ReqIdent.missing 600 1 rfl

/-- C7: the check routes are read-only: any sequence of check calls of
either variant — any identifiers, any instants, no intervening spin —
returns the table exactly as it started. -/
theorem c7_check_readonly (led : Ledger) (calls : List (ReqIdent × Nat)) :
    calls.foldl (fun l c => (checkPGRoute l c.1 c.2).led) led = led ∧
    calls.foldl (fun l c => (checkSQLiteRoute l c.1 c.2).led) led = led := by
  induction calls generalizing led with
  | nil => exact ⟨rfl, rfl⟩
  | cons c rest ih =>
    constructor
    · rw [List.foldl_cons, checkPGRoute_led]
      exact (ih led).1
    · rw [List.foldl_cons, checkSQLiteRoute_led]
      exact (ih led).2

/-- C8: the draw is one of the 50 equally likely integers of `[0, 50)` and
exactly one of them (the value 0) wins, so each eligible spin wins with
probability exactly 1/50; and a committing spin reports exactly the drawn
outcome, with no adjustment from the stored history. -/
theorem c8_win_probability (led : Ledger) (id : String) (now : Nat)
    (draw : Fin 50)
    (h : spinRead led id (utcDate now) ≠ ReadOutcome.reject) :
    (Finset.univ.filter (fun r : Fin 50 => hasWonOf r = true)).card = 1 ∧
    (hasWonOf draw = true ↔ draw = 0) ∧
    (spinPGRoute led (ReqIdent.str id) now draw).result
      = RouteResult.spinSuccess (hasWonOf draw) := by
  refine ⟨by decide, by simp [hasWonOf, Fin.ext_iff], ?_⟩
  rw [show spinPGRoute led (ReqIdent.str id) now draw
      = spinWrite led id (utcDate now) draw (spinRead led id (utcDate now))
      from rfl]
  cases hr : spinRead led id (utcDate now) with
  | reject => exact absurd hr h
  | proceedInsert => simp [spinWrite]
  | proceedUpdate => simp [spinWrite]

/-- C8 witness: a fresh identifier at instant 600 drawing 0 wins. -/
theorem c8_win_probability_witness :
    (Finset.univ.filter (fun r : Fin 50 => hasWonOf r = true)).card = 1 ∧
    (hasWonOf (0 : Fin 50) = true ↔ (0 : Fin 50) = 0) ∧
    (spinPGRoute emptyLedger (ReqIdent.str "abc") 600 0).result
      = RouteResult.spinSuccess (hasWonOf 0) :=
  c8_win_probability emptyLedger "abc" 600 0 (by decide)

/-- C9: both the eligibility comparison and the committed `last_spin_date`
use the UTC calendar date of the current instant
(`new Date().toISOString()` renders UTC), computed once at request start:
a spin against a stored row is rejected exactly when the row's date equals
`utcDate now`, every commit stores `utcDate now` itself, and
`utcDate now = d` holds precisely from 00:00 UTC of day `d` (inclusive)
to 00:00 UTC of day `d + 1` (exclusive), so the daily limit resets at UTC
midnight. -/
theorem c9_utc_today (led : Ledger) (id : String) (now d : Nat)
    (draw : Fin 50) :
    (utcDate now = d ↔ startOfDay d ≤ now ∧ now < startOfDay (d + 1)) ∧
    (∀ e, led id = some e →
      ((spinPGRoute led (ReqIdent.str id) now draw).result
          = RouteResult.alreadySpunToday ↔
        e.last_spin_date = utcDate now)) ∧
    (∀ e, led id = some e → e.last_spin_date ≠ utcDate now →
      (spinPGRoute led (ReqIdent.str id) now draw).led id
        = some ⟨utcDate now, e.total_spins + 1,
            e.total_wins + cond (hasWonOf draw) 1 0⟩) ∧
    (led id = none →
      (spinPGRoute led (ReqIdent.str id) now draw).led id
        = some ⟨utcDate now, 1, cond (hasWonOf draw) 1 0⟩) := by
  refine ⟨by unfold utcDate startOfDay minutesPerDay; omega,
    fun e he => ?_, fun e he hne => ?_, fun h0 => ?_⟩
  · by_cases hd : e.last_spin_date = utcDate now
    · simp [spinPGRoute, pgKey, spinRead, he, hd, spinWrite]
    · simp [spinPGRoute, pgKey, spinRead, he, hd, spinWrite]
  · simp [spinPGRoute, pgKey, spinRead, he, hne, spinWrite, updateEntry]
  · simp [spinPGRoute, pgKey, spinRead, h0, spinWrite, insertEntry]

/-- C9 witness: "abc" (row of date 0) is rejected at instant 100 (day 0)
and commits at instant 1500 (day 1) with stored date 1. -/
theorem c9_utc_today_witness :
    ((spinPGRoute ledAbcDay0 (ReqIdent.str "abc") 100 5).result
        = RouteResult.alreadySpunToday ↔ (0 : Nat) = utcDate 100) ∧
    (spinPGRoute ledAbcDay0 (ReqIdent.str "abc") 1500 5).led "abc"
      = some ⟨1, 2, 0⟩ :=
  ⟨(c9_utc_today ledAbcDay0 "abc" 100 0 5).2.1 ⟨0, 1, 0⟩ (by decide),
   (c9_utc_today ledAbcDay0 "abc" 1500 1 5).2.2.1 ⟨0, 1, 0⟩ (by decide)
     (by decide)⟩

/-- C10: when the PostgreSQL spin route answers success, the reported
`hasWon` equals the increment the same commit applied to the stored
`total_wins` — the counter grows by exactly 1 on a reported win and by
exactly 0 on a reported loss — and `total_spins` grows by exactly 1. -/
theorem c10_response_matches_commit (led : Ledger) (id : String)
    (now : Nat) (draw : Fin 50) (b : Bool)
    (h : (spinPGRoute led (ReqIdent.str id) now draw).result
        = RouteResult.spinSuccess b) :
    winsOf (spinPGRoute led (ReqIdent.str id) now draw).led id
        = winsOf led id + cond b 1 0 ∧
    spinsOf (spinPGRoute led (ReqIdent.str id) now draw).led id
        = spinsOf led id + 1 := by
  rw [show spinPGRoute led (ReqIdent.str id) now draw
      = spinWrite led id (utcDate now) draw (spinRead led id (utcDate now))
      from rfl] at h ⊢
  cases hr : spinRead led id (utcDate now) with
  | reject =>
    rw [hr] at h
    exact absurd h (by simp [spinWrite])
  | proceedInsert =>
    have h0 := (spinRead_insert_iff led id (utcDate now)).mp hr
    rw [hr] at h
    have hb : b = hasWonOf draw := by
      simp only [spinWrite, RouteResult.spinSuccess.injEq] at h
      exact h.symm
    subst hb
    exact ⟨by simp [spinWrite, winsOf, insertEntry, h0],
      by simp [spinWrite, spinsOf, insertEntry, h0]⟩
  | proceedUpdate =>
    obtain ⟨e0, he0, hne⟩ := (spinRead_update_iff led id (utcDate now)).mp hr
    rw [hr] at h
    have hb : b = hasWonOf draw := by
      simp only [spinWrite, RouteResult.spinSuccess.injEq] at h
      exact h.symm
    subst hb
    exact ⟨by simp [spinWrite, winsOf, updateEntry, he0],
      by simp [spinWrite, spinsOf, updateEntry, he0]⟩

/-- C10 witness: a fresh identifier spinning at instant 600 with winning
draw 0 reports a win and the stored `total_wins` grows from 0 to 1. -/
theorem c10_response_matches_commit_witness :
    winsOf (spinPGRoute emptyLedger (ReqIdent.str "abc") 600 0).led "abc"
        = winsOf emptyLedger "abc" + cond true 1 0 ∧
    spinsOf (spinPGRoute emptyLedger (ReqIdent.str "abc") 600 0).led "abc"
        = spinsOf emptyLedger "abc" + 1 :=
  c10_response_matches_commit emptyLedger "abc" 600 0 true (by decide)
